import Mathlib

/-!
Verification of the schema-definition/validation layer, the attribute
serialization pipeline, and the paginated streaming scan reader of the
barchart-common-node-js repository, via a shallow embedding in Lean.

Strings from the JavaScript side are modelled as lists of unicode
codepoints (`List Nat`) where codepoint-level behaviour matters, and as
Lean `String` where only emptiness/equality matter (table and index names).
-/

/-- Modelled from the spec: `DataType` is the enumeration of primitive wire
types (string, number, binary, boolean); the class file is absent from the
sources. -/
inductive DataType where
  | string
  | number
  | binary
  | boolean
deriving DecidableEq, Repr

/-- Modelled from the spec: `EncryptionType` enumerates the supported
symmetric algorithms (distinct AES key lengths); the class file is absent
from the sources. -/
inductive EncryptionType where
  | aes192
  | aes256
deriving DecidableEq, Repr

/-- Modelled from the spec: `Encryptor` is `{ type: EncryptionType, key: string }`;
the class file is absent from the sources. The key is a codepoint list. -/
structure Encryptor where
  etype : EncryptionType
  key : List Nat
deriving DecidableEq, Repr

/-- Modelled from the spec: the serializer configured on an attribute is one
of the five pipeline kinds of section 4.2. -/
inductive SerializerKind where
  | stringKind
  | jsonKind
  | compressedJsonKind
  | encryptedJsonKind
  | encryptedStringKind
deriving DecidableEq, Repr

/-- Modelled from the spec: `Attribute` is
`{ name, dataType, serializer?, encryptor? }`; the class file is absent from
the sources. -/
structure Attribute where
  name : String
  dataType : DataType
  serializer : Option SerializerKind := none
  encryptor : Option Encryptor := none
deriving DecidableEq, Repr

/-- Modelled from the spec: `KeyType` is the enumeration `{HASH, RANGE}`;
the class file is absent from the sources. -/
inductive KeyType where
  | hash
  | range
deriving DecidableEq, Repr

/-- Modelled from the spec: `Key` is `{ attribute, keyType }`; the class file
is absent from the sources. -/
structure Key where
  attrib : Attribute
  keyType : KeyType
deriving DecidableEq, Repr

/-- Modelled from the spec: `IndexType` is the enumeration
`{GLOBAL_SECONDARY, LOCAL_SECONDARY}`; the class file is absent from the
sources. -/
inductive IndexType where
  | globalSecondary
  | localSecondary
deriving DecidableEq, Repr

/-- Modelled from the spec: `Index` is
`{ name, keys: ordered sequence of Key, type: IndexType, projection }`; the
class file is absent from the sources. The projection carries no structure
used by any claim and is reduced to a unit field. -/
structure Index where
  name : String
  keys : List Key
  itype : IndexType
deriving DecidableEq, Repr

/-- Modelled from the spec: `ProvisionedThroughput` is
`{ read: number, write: number }`, each positive; the class file is absent
from the sources. -/
structure ProvisionedThroughput where
  read : Int
  write : Int
deriving DecidableEq, Repr

/-- Modelled from the spec: `Attribute.validate` requires the attribute name
to be present and the data type valid (the data type is valid by
construction in the typed model). -/
def Attribute.validate (a : Attribute) : Except String Unit :=
  if a.name.length < 1 then Except.error "Attribute name is invalid." else Except.ok ()

/-- Modelled from the spec: `Key.validate` must pass on the referenced
attribute. -/
def Key.validate (k : Key) : Except String Unit :=
  k.attrib.validate

/-- Modelled from the spec: an index independently validates (its name is
present and each of its keys validates). -/
def Index.validate (i : Index) : Except String Unit :=
  if i.name.length < 1 then Except.error "Index name is invalid."
  else
    match (i.keys.map Key.validate).find? (fun r => !r.toBool) with
    | some (Except.error e) => Except.error e
    | _ => Except.ok ()

/-- Modelled from the spec: `ProvisionedThroughput.validate` requires
positive integers. -/
def ProvisionedThroughput.validate (p : ProvisionedThroughput) : Except String Unit :=
  if 0 < p.read ∧ 0 < p.write then Except.ok ()
  else Except.error "Provisioned throughput is invalid."

/-- An element of the JavaScript `keys` array of a `Table`. JavaScript arrays
are untyped, so an element is either an actual `Key` instance or some other
value (`other`); `Table.validate` checks `instanceof Key` explicitly. -/
inductive TableEntry where
  | key (k : Key)
  | other (tag : Nat)
deriving DecidableEq, Repr

/-- An element of the JavaScript `indicies` array of a `Table`: either an
actual `Index` instance or some other value. -/
inductive IndexEntry where
  | index (i : Index)
  | other (tag : Nat)
deriving DecidableEq, Repr

def TableEntry.isKey : TableEntry → Bool
  | TableEntry.key _ => true
  | TableEntry.other _ => false

def IndexEntry.isIndex : IndexEntry → Bool
  | IndexEntry.index _ => true
  | IndexEntry.other _ => false

/-- The key type of an entry, when the entry is a `Key` instance
(`k.keyType` in the source is only evaluated on `Key` instances). -/
def TableEntry.keyTypeOf : TableEntry → Option KeyType
  | TableEntry.key k => some k.keyType
  | TableEntry.other _ => none

/-- The attribute name of an entry (`k.attrib.name` in the source is only
evaluated after the `instanceof Key` check passed). -/
def TableEntry.attributeName : TableEntry → String
  | TableEntry.key k => k.attrib.name
  | TableEntry.other t => toString t

/-- The index name of an entry (`i.name` in the source is only evaluated
after the `instanceof Index` check passed). -/
def IndexEntry.indexName : IndexEntry → String
  | IndexEntry.index i => i.name
  | IndexEntry.other t => toString t

def TableEntry.validateEntry : TableEntry → Except String Unit
  | TableEntry.key k => k.validate
  | TableEntry.other _ => Except.ok ()

def IndexEntry.indexTypeOf : IndexEntry → Option IndexType
  | IndexEntry.index i => some i.itype
  | IndexEntry.other _ => none

def IndexEntry.validateEntry : IndexEntry → Except String Unit
  | IndexEntry.index i => i.validate
  | IndexEntry.other _ => Except.ok ()

/-- `array.unique` of common-js: true when no element repeats. -/
def uniqueList [DecidableEq α] : List α → Bool
  | [] => true
  | x :: xs => !xs.contains x && uniqueList xs

/-- `Table` from the source (`constructor(name, keys, indicies, provisionedThroughput)`):
plain data, arrays default to empty. -/
structure Table where
  name : String
  keys : List TableEntry := []
  indices : List IndexEntry := []
  provisionedThroughput : ProvisionedThroughput
deriving DecidableEq, Repr

/-- Sequential validation of a list, stopping at the first failure
(the source's `forEach(k => k.validate())`, where `validate` throws). -/
def validateEach (f : α → Except String Unit) : List α → Except String Unit
  | [] => Except.ok ()
  | x :: xs =>
    match f x with
    | Except.error e => Except.error e
    | Except.ok _ => validateEach f xs

/-- `Table.validate` from the source, check for check, in source order. The
two `is.array` checks always pass in the typed model and are omitted. -/
def Table.validate (t : Table) : Except String Unit :=
  if t.name.length < 1 then
    Except.error "Table name is invalid."
  else if !(t.keys.all TableEntry.isKey) then
    Except.error "Table key array can only contain Key instances."
  else if (t.keys.filter (fun k => k.keyTypeOf = some KeyType.hash)).length ≠ 1 then
    Except.error "Table must have one hash key."
  else if !(uniqueList (t.keys.map TableEntry.attributeName)) then
    Except.error "Table key names must be unique (only one key with a given name)."
  else if !(t.indices.all IndexEntry.isIndex) then
    Except.error "Table indicies array can only contain Index instances."
  else if !(uniqueList (t.indices.map IndexEntry.indexName)) then
    Except.error "Table index names must be unique (only one index with a given name)."
  else
    match validateEach TableEntry.validateEntry t.keys with
    | Except.error e => Except.error e
    | Except.ok _ =>
      match validateEach IndexEntry.validateEntry t.indices with
      | Except.error e => Except.error e
      | Except.ok _ => t.provisionedThroughput.validate

/-- The wire tag of a data type (single-key tagged objects, one tag per
`DataType`). -/
def DataType.tag : DataType → String
  | DataType.string => "S"
  | DataType.number => "N"
  | DataType.binary => "B"
  | DataType.boolean => "BOOL"

/-- Modelled from the spec: `Attribute.toAttributeSchema` projects an
attribute into `{name, type}`; the class file is absent from the sources. -/
structure AttributeSchema where
  attributeName : String
  attributeType : String
deriving DecidableEq, Repr

def Attribute.toAttributeSchema (a : Attribute) : AttributeSchema :=
  { attributeName := a.name, attributeType := a.dataType.tag }

/-- Modelled from the spec: `Key.toKeySchema` projects a key into
`{name, role}`; the class file is absent from the sources. -/
structure KeySchemaEntry where
  attributeName : String
  role : KeyType
deriving DecidableEq, Repr

def Key.toKeySchema (k : Key) : KeySchemaEntry :=
  { attributeName := k.attrib.name, role := k.keyType }

/-- Modelled from the spec: `Index.toIndexSchema` projects an index into a
wire record carrying the index name; the class file is absent from the
sources and no claim depends on the record's further fields. -/
structure IndexSchemaEntry where
  indexName : String
deriving DecidableEq, Repr

def Index.toIndexSchema (i : Index) : IndexSchemaEntry :=
  { indexName := i.name }

def TableEntry.toAttributeSchemaOf : TableEntry → AttributeSchema
  | TableEntry.key k => k.attrib.toAttributeSchema
  | TableEntry.other t => { attributeName := toString t, attributeType := "" }

def TableEntry.toKeySchemaOf : TableEntry → KeySchemaEntry
  | TableEntry.key k => k.toKeySchema
  | TableEntry.other t => { attributeName := toString t, role := KeyType.hash }

def IndexEntry.toIndexSchemaOf : IndexEntry → IndexSchemaEntry
  | IndexEntry.index i => i.toIndexSchema
  | IndexEntry.other t => { indexName := toString t }

/-- Modelled from the spec: the throughput wire record `{read, write}`. -/
structure ThroughputSchema where
  read : Int
  write : Int
deriving DecidableEq, Repr

def ProvisionedThroughput.toProvisionedThroughputSchema (p : ProvisionedThroughput) : ThroughputSchema :=
  { read := p.read, write := p.write }

/-- The wire table schema produced by `toTableSchema`. An `Option` field
value of `none` models the field being entirely absent from the JavaScript
object. -/
structure TableSchema where
  tableName : String
  attributeDefinitions : List AttributeSchema
  keySchema : List KeySchemaEntry
  throughput : ThroughputSchema
  globalSecondaryIndexes : Option (List IndexSchemaEntry)
  localSecondaryIndexes : Option (List IndexSchemaEntry)
deriving DecidableEq, Repr

/-- `Table.toTableSchema` from the source: validates first, then projects;
the GSI/LSI fields are set only when the corresponding filtered index list
is non-empty. -/
def Table.toTableSchema (t : Table) : Except String TableSchema :=
  match t.validate with
  | Except.error e => Except.error e
  | Except.ok _ =>
    Except.ok
      { tableName := t.name
        attributeDefinitions := t.keys.map TableEntry.toAttributeSchemaOf
        keySchema := t.keys.map TableEntry.toKeySchemaOf
        throughput := t.provisionedThroughput.toProvisionedThroughputSchema
        globalSecondaryIndexes :=
          if (t.indices.filter (fun i => i.indexTypeOf = some IndexType.globalSecondary)).length ≠ 0 then
            some ((t.indices.filter (fun i => i.indexTypeOf = some IndexType.globalSecondary)).map IndexEntry.toIndexSchemaOf)
          else none
        localSecondaryIndexes :=
          if (t.indices.filter (fun i => i.indexTypeOf = some IndexType.localSecondary)).length ≠ 0 then
            some ((t.indices.filter (fun i => i.indexTypeOf = some IndexType.localSecondary)).map IndexEntry.toIndexSchemaOf)
          else none }

/-- True when a validation attempt failed (the source throws an `Error`). -/
def validationFailed : Except String Unit → Bool
  | Except.error _ => true
  | Except.ok _ => false

/-- The number of HASH keys in the key set. -/
def Table.hashKeyCount (t : Table) : Nat :=
  (t.keys.filter (fun k => k.keyTypeOf = some KeyType.hash)).length

/-!
Serializer pipeline (spec section 4.2). The serializer class sources
(`Serializer`, `StringSerializer`, `JsonSerializer`, `CompressedJsonSerializer`,
`EncryptedStringSerializer` and the compress/encrypt primitives) are absent
from the sources; everything below is modelled from the spec: each serializer
is a fixed-order transform pipeline (encode, compress, encrypt, tag) between
a domain value and a single-tag wire record, with each layer's deserialize
the byte-exact inverse of its serialize.
-/

mutual

/-- Modelled from the spec: a JSON domain object (strings are codepoint
lists). Mutual with its list and field-list forms. -/
inductive Json where
  | str (s : List Nat)
  | num (n : Int)
  | bool (b : Bool)
  | null
  | arr (items : JsonList)
  | obj (fields : JsonFields)

/-- The elements of a JSON array. -/
inductive JsonList where
  | nil
  | cons (hd : Json) (tl : JsonList)

/-- The named fields of a JSON object. -/
inductive JsonFields where
  | nil
  | cons (fieldName : List Nat) (hd : Json) (tl : JsonFields)

end

deriving instance DecidableEq for Json, JsonList, JsonFields

mutual

/-- Modelled from the spec: the JSON text encoding of a domain object, as a
token sequence (each constructor emits a distinct lead token, strings and
field names are length-prefixed). -/
def encodeJ : Json → List Nat
  | Json.str s => 0 :: s.length :: s
  | Json.num n => 1 :: (if n < 0 then 1 else 0) :: n.natAbs :: []
  | Json.bool b => 2 :: (if b then 1 else 0) :: []
  | Json.null => [3]
  | Json.arr items => 4 :: encodeJList items
  | Json.obj fields => 7 :: encodeJFields fields

def encodeJList : JsonList → List Nat
  | JsonList.nil => [5]
  | JsonList.cons h t => 6 :: (encodeJ h ++ encodeJList t)

def encodeJFields : JsonFields → List Nat
  | JsonFields.nil => [8]
  | JsonFields.cons fieldName h t => 9 :: fieldName.length :: (fieldName ++ (encodeJ h ++ encodeJFields t))

end

mutual

/-- The recursion depth needed to decode the encoding of a value. -/
def sizeJ : Json → Nat
  | Json.arr items => 1 + sizeJList items
  | Json.obj fields => 1 + sizeJFields fields
  | _ => 1

def sizeJList : JsonList → Nat
  | JsonList.nil => 1
  | JsonList.cons h t => 1 + sizeJ h + sizeJList t

def sizeJFields : JsonFields → Nat
  | JsonFields.nil => 1
  | JsonFields.cons _ h t => 1 + sizeJ h + sizeJFields t

end

mutual

/-- Modelled from the spec: the JSON parser over the token encoding. It is a
fuel-indexed prefix parser returning the parsed value and the unconsumed
tail; it fails (`none`) on malformed input. -/
def decodeJ : Nat → List Nat → Option (Json × List Nat)
  | 0, _ => none
  | fuel + 1, tokens =>
    match tokens with
    | 0 :: len :: rest =>
      if len ≤ rest.length then some (Json.str (rest.take len), rest.drop len) else none
    | 1 :: sign :: mag :: rest =>
      some (Json.num (if sign = 1 then -(mag : Int) else (mag : Int)), rest)
    | 2 :: b :: rest => some (Json.bool (b == 1), rest)
    | 3 :: rest => some (Json.null, rest)
    | 4 :: rest =>
      match decodeJList fuel rest with
      | some (l, r) => some (Json.arr l, r)
      | none => none
    | 7 :: rest =>
      match decodeJFields fuel rest with
      | some (f, r) => some (Json.obj f, r)
      | none => none
    | _ => none

def decodeJList : Nat → List Nat → Option (JsonList × List Nat)
  | 0, _ => none
  | fuel + 1, tokens =>
    match tokens with
    | 5 :: rest => some (JsonList.nil, rest)
    | 6 :: rest =>
      match decodeJ fuel rest with
      | some (j, r1) =>
        match decodeJList fuel r1 with
        | some (t, r2) => some (JsonList.cons j t, r2)
        | none => none
      | none => none
    | _ => none

def decodeJFields : Nat → List Nat → Option (JsonFields × List Nat)
  | 0, _ => none
  | fuel + 1, tokens =>
    match tokens with
    | 8 :: rest => some (JsonFields.nil, rest)
    | 9 :: len :: rest =>
      if len ≤ rest.length then
        match decodeJ fuel (rest.drop len) with
        | some (j, r1) =>
          match decodeJFields fuel r1 with
          | some (t, r2) => some (JsonFields.cons (rest.take len) j t, r2)
          | none => none
        | none => none
      else none
    | _ => none

end

/-- JSON-encode a domain object to text. -/
def jsonEncode (j : Json) : List Nat := encodeJ j

/-- JSON-parse a complete text back to a domain object; fails on malformed
or trailing input. -/
def jsonDecodeFull (s : List Nat) : Option Json :=
  match decodeJ (s.length + 1) s with
  | some (j, []) => some j
  | _ => none

/-- Modelled from the spec: the compression layer, as run-length coding of
the byte sequence (the spec fixes only that compression is an invertible
byte-sequence transform; the vendor compression library is external). The
accumulator carries the count of the current run. -/
def rleCompressGo (cnt x : Nat) : List Nat → List Nat
  | [] => cnt :: x :: []
  | y :: ys => if y = x then rleCompressGo (cnt + 1) x ys else cnt :: x :: rleCompressGo 1 y ys

def rleCompress : List Nat → List Nat
  | [] => []
  | x :: xs => rleCompressGo 1 x xs

/-- Modelled from the spec: decompression; fails on a malformed run
sequence. -/
def rleDecompress : List Nat → Option (List Nat)
  | [] => some []
  | cnt :: x :: rest =>
    if cnt = 0 then none
    else (rleDecompress rest).map (fun l => List.replicate cnt x ++ l)
  | _ :: [] => none

/-- Modelled from the spec: the keystream of the symmetric cipher, derived
from the encryptor's key and algorithm. -/
def keystream (e : Encryptor) (i : Nat) : Nat :=
  e.key.getD (i % (max 1 e.key.length)) 0 +
    (match e.etype with
     | EncryptionType.aes192 => 192
     | EncryptionType.aes256 => 256)

/-- Modelled from the spec: symmetric encryption of a byte sequence with the
attribute's configured encryptor (position-wise keystream addition),
starting at stream position `i`. -/
def encryptFrom (e : Encryptor) (i : Nat) : List Nat → List Nat
  | [] => []
  | b :: rest => (b + keystream e i) :: encryptFrom e (i + 1) rest

/-- Modelled from the spec: symmetric decryption, the inverse keystream
subtraction. -/
def decryptFrom (e : Encryptor) (i : Nat) : List Nat → List Nat
  | [] => []
  | b :: rest => (b - keystream e i) :: decryptFrom e (i + 1) rest

/-- A single-tag wire record `{tag: DataType, value}`: one constructor per
wire tag (string tag `S`, number tag `N` as decimal text, binary tag `B` as
a byte sequence, boolean tag `BOOL`). -/
inductive WireRecord where
  | S (value : List Nat)
  | N (value : List Nat)
  | B (value : List Nat)
  | BOOL (value : Bool)
deriving DecidableEq, Repr

/-- Modelled from the spec: `StringSerializer.serialize`, the identity
mapping onto a string-tagged record. -/
def StringSerializer.serialize (v : List Nat) : WireRecord := WireRecord.S v

/-- Modelled from the spec: `StringSerializer.deserialize`. -/
def StringSerializer.deserialize : WireRecord → Option (List Nat)
  | WireRecord.S v => some v
  | _ => none

/-- Modelled from the spec: `JsonSerializer.serialize`, domain object to
JSON text, tagged as string. -/
def JsonSerializer.serialize (j : Json) : WireRecord := WireRecord.S (jsonEncode j)

/-- Modelled from the spec: `JsonSerializer.deserialize`. -/
def JsonSerializer.deserialize : WireRecord → Option Json
  | WireRecord.S v => jsonDecodeFull v
  | _ => none

/-- Modelled from the spec: `CompressedJsonSerializer.serialize`:
JSON-encode, compress, tag as binary. -/
def CompressedJsonSerializer.serialize (j : Json) : WireRecord :=
  WireRecord.B (rleCompress (jsonEncode j))

/-- Modelled from the spec: `CompressedJsonSerializer.deserialize`:
decompress then JSON-parse, failing on malformed input. -/
def CompressedJsonSerializer.deserialize : WireRecord → Option Json
  | WireRecord.B v => (rleDecompress v).bind jsonDecodeFull
  | _ => none

/-- Modelled from the spec: `EncryptedJsonSerializer.serialize` (the class
shell in the sources only wires the attribute's encryptor into the
compressed pipeline): JSON-encode, compress, encrypt with the attribute's
encryptor, tag as binary; a configuration error when the attribute has no
encryptor. -/
def EncryptedJsonSerializer.serialize (a : Attribute) (j : Json) : Except String WireRecord :=
  match a.encryptor with
  | none => Except.error "ConfigurationError: the attribute has no encryptor."
  | some e => Except.ok (WireRecord.B (encryptFrom e 0 (rleCompress (jsonEncode j))))

/-- Modelled from the spec: `EncryptedJsonSerializer.deserialize`: decrypt,
decompress, parse; serialization errors on malformed payloads. -/
def EncryptedJsonSerializer.deserialize (a : Attribute) : WireRecord → Except String Json
  | WireRecord.B v =>
    match a.encryptor with
    | none => Except.error "ConfigurationError: the attribute has no encryptor."
    | some e =>
      match rleDecompress (decryptFrom e 0 v) with
      | none => Except.error "SerializationError: corrupt compressed payload."
      | some bytes =>
        match jsonDecodeFull bytes with
        | some j => Except.ok j
        | none => Except.error "SerializationError: malformed JSON payload."
  | _ => Except.error "SerializationError: malformed tag."

/-- Modelled from the spec: `EncryptedStringSerializer.serialize`: encrypt
the raw string directly (no JSON, no compression), tag as binary. -/
def EncryptedStringSerializer.serialize (a : Attribute) (s : List Nat) : Except String WireRecord :=
  match a.encryptor with
  | none => Except.error "ConfigurationError: the attribute has no encryptor."
  | some e => Except.ok (WireRecord.B (encryptFrom e 0 s))

/-- Modelled from the spec: `EncryptedStringSerializer.deserialize`: decrypt
and return the string unchanged. -/
def EncryptedStringSerializer.deserialize (a : Attribute) : WireRecord → Except String (List Nat)
  | WireRecord.B v =>
    match a.encryptor with
    | none => Except.error "ConfigurationError: the attribute has no encryptor."
    | some e => Except.ok (decryptFrom e 0 v)
  | _ => Except.error "SerializationError: malformed tag."

/-!
Provider facade lifecycle (`DynamoProvider.start` from the source). The
underlying SDK initialization (`aws.config.update` and the `aws.DynamoDB`
construction) is external; its outcome is supplied as an `Except Unit Unit`
argument and the number of times it ran is counted.
-/

deriving instance DecidableEq for Except

/-- The lifecycle-relevant fields of a `DynamoProvider` instance:
`_startPromise` (the memoized settled start promise, `none` before the first
call), `_started`, the disposal flag of the `Disposable` base, and a count
of how many times the SDK initialization body ran. -/
structure ProviderState where
  disposed : Bool
  startPromise : Option (Except Unit Bool)
  started : Bool
  initCount : Nat
deriving DecidableEq, Repr

/-- A freshly constructed provider. -/
def ProviderState.fresh : ProviderState :=
  { disposed := false, startPromise := none, started := false, initCount := 0 }

/-- `DynamoProvider.start` from the source. The outer `Except String` is the
synchronous throw on a disposed provider; the inner `Except Unit Bool` is
the settled value of the returned promise (`true` on success, the rethrown
error on failure). A fulfilled initialization sets `_started` and resolves
with it; a failed one leaves `_started` false and memoizes the rejection.
Either way `_startPromise` is memoized, so the body runs at most once. -/
def DynamoProvider.start (initResult : Except Unit Unit) (s : ProviderState) :
    Except String (ProviderState × Except Unit Bool) :=
  if s.disposed then
    Except.error "The Dynamo Provider has been disposed."
  else
    match s.startPromise with
    | some p => Except.ok (s, p)
    | none =>
      match initResult with
      | Except.ok _ =>
        let p : Except Unit Bool := Except.ok true
        Except.ok ({ s with startPromise := some p, started := true, initCount := s.initCount + 1 }, p)
      | Except.error e =>
        let p : Except Unit Bool := Except.error e
        Except.ok ({ s with startPromise := some p, initCount := s.initCount + 1 }, p)

/-- A sequence of `start` calls, one per initialization outcome in the list,
collecting the settled promise each call returned. -/
def DynamoProvider.startMany :
    List (Except Unit Unit) → ProviderState → Except String (ProviderState × List (Except Unit Bool))
  | [], s => Except.ok (s, [])
  | i :: is, s =>
    match DynamoProvider.start i s with
    | Except.error e => Except.error e
    | Except.ok (s1, r) =>
      match DynamoProvider.startMany is s1 with
      | Except.error e => Except.error e
      | Except.ok (s2, rs) => Except.ok (s2, r :: rs)

/-!
Scan stream reader (`DynamoScanReader` from the source). The reader is a
pull-based state machine: items are abstract (`Nat`), a provider page is the
result object of one `scanChunk` call (`results` plus the optional
continuation `startKey`), and the provider itself is a function from the
cursor argument (the stored previous result object, `null` on the first
call) to the outcome of the remote call. The consumer's backpressure
decisions (the return values of `this.push(...)`) are a function of the
count of data pushes so far. The JavaScript control flow is a sequential
promise chain, so one `_read` invocation is a terminating loop over pages;
the fuel argument bounds the number of `scanChunk` calls a single loop may
make and is a model artifact (any fuel at least the page count behaves
identically).
-/

/-- One `scanChunk` result object: the items of the page and the optional
continuation token (`startKey`). -/
structure Page where
  results : List Nat
  startKey : Option Nat
deriving DecidableEq, Repr

/-- The mutable fields of a `DynamoScanReader`: `_previous` (the last result
object, `null` initially), `_scanned`, `_reading` and `_error`. -/
structure ReaderState where
  previous : Option Page
  scanned : Nat
  reading : Bool
  error : Bool
deriving DecidableEq, Repr

/-- The reader's fields right after construction. -/
def ReaderState.initial : ReaderState :=
  { previous := none, scanned := 0, reading := false, error := false }

/-- The observable events of one `_read` invocation, in order: a `scanChunk`
call with its cursor argument, a data push to the consumer, the
end-of-sequence signal (`push(null)`), and the asynchronous error emission. -/
inductive ReaderEvent where
  | scanCall (cursor : Option Page)
  | pushBatch (items : List Nat)
  | pushEnd
  | emitError
deriving DecidableEq, Repr

/-- `this._previous !== null && !this._previous.startKey` from the source:
the stored cursor says the scan is complete. -/
def cursorExhausted : Option Page → Bool
  | some p => p.startKey = none
  | none => false

/-- `scanChunkRecursive` from the source `_read`: the page-fetch loop. On a
complete cursor it clears `_reading` and signals end-of-sequence. Otherwise
it calls `scanChunk` with the stored cursor; on success it stores the result
object, pushes the batch when non-empty (the push's return value becoming
`_reading`), and continues while `_reading` holds; on failure it clears
`_reading`, sets `_error`, signals end-of-sequence and then emits the error
asynchronously. -/
def scanChunkRecursive (provider : Option Page → Except Unit Page) (accept : Nat → Bool)
    (fuel : Nat) (s : ReaderState) (pushCount : Nat) (trace : List ReaderEvent) :
    ReaderState × List ReaderEvent :=
  if cursorExhausted s.previous then
    ({ s with reading := false }, trace ++ [ReaderEvent.pushEnd])
  else
    match fuel with
    | 0 => (s, trace)
    | fuel + 1 =>
      match provider s.previous with
      | Except.ok results =>
        let s1 := { s with previous := some results }
        if results.results.length ≠ 0 then
          let s2 := { s1 with
            scanned := s1.scanned + results.results.length
            reading := accept pushCount }
          if s2.reading then
            scanChunkRecursive provider accept fuel s2 (pushCount + 1)
              (trace ++ [ReaderEvent.scanCall s.previous, ReaderEvent.pushBatch results.results])
          else
            (s2, trace ++ [ReaderEvent.scanCall s.previous, ReaderEvent.pushBatch results.results])
        else
          if s1.reading then
            scanChunkRecursive provider accept fuel s1 pushCount
              (trace ++ [ReaderEvent.scanCall s.previous])
          else
            (s1, trace ++ [ReaderEvent.scanCall s.previous])
      | Except.error _ =>
        ({ s with reading := false, error := true },
          trace ++ [ReaderEvent.scanCall s.previous, ReaderEvent.pushEnd, ReaderEvent.emitError])

/-- `DynamoScanReader._read` from the source: a no-op while `_reading`, a
no-op after an error, otherwise sets `_reading` and runs the fetch loop. -/
def readerRead (provider : Option Page → Except Unit Page) (accept : Nat → Bool)
    (fuel : Nat) (s : ReaderState) (pushCount : Nat) : ReaderState × List ReaderEvent :=
  if s.reading then (s, [])
  else if s.error then (s, [])
  else scanChunkRecursive provider accept fuel { s with reading := true } pushCount []

/-- The data batches of a trace, in push order. -/
def pushedBatches (trace : List ReaderEvent) : List (List Nat) :=
  trace.filterMap (fun e =>
    match e with
    | ReaderEvent.pushBatch items => some items
    | _ => none)

/-- The `scanChunk` cursor arguments of a trace, in call order. -/
def scanCalls (trace : List ReaderEvent) : List (Option Page) :=
  trace.filterMap (fun e =>
    match e with
    | ReaderEvent.scanCall c => some c
    | _ => none)

/-- How many times the trace signals end-of-sequence. -/
def endSignalCount (trace : List ReaderEvent) : Nat :=
  trace.countP (fun e => e = ReaderEvent.pushEnd)

/-- How many times the trace emits an error. -/
def errorSignalCount (trace : List ReaderEvent) : Nat :=
  trace.countP (fun e => e = ReaderEvent.emitError)

/-- The Exhausted state of spec section 4.3: the last page was consumed
(stored cursor complete), no fetch in flight, no error. -/
def ReaderState.isExhausted (s : ReaderState) : Bool :=
  cursorExhausted s.previous && !s.reading && !s.error

/-- The Paused state of spec section 4.3: the consumer declined a push; no
fetch in flight, no error, and the stored cursor still has pages. -/
def ReaderState.isPaused (s : ReaderState) : Bool :=
  !cursorExhausted s.previous && !s.reading && !s.error && s.previous.isSome

/-!
Heap model for the `Table` getters. The source getters return
`[...this._keys]` and `[...this._indices]` — fresh copies. To state that
mutating a returned copy cannot affect the table, arrays live in an explicit
heap of cells and a table holds references; the getters copy the referenced
cell into a freshly allocated one and hand back the new reference.
-/

/-- A heap cell: one JavaScript array, holding either key entries or index
entries. -/
inductive HeapCell where
  | keysArr (entries : List TableEntry)
  | idxArr (entries : List IndexEntry)
deriving DecidableEq, Repr

/-- The heap: cells addressed by position. -/
structure Heap where
  cells : List HeapCell
deriving DecidableEq, Repr

def Heap.getCell (h : Heap) (r : Nat) : HeapCell :=
  h.cells.getD r (HeapCell.keysArr [])

/-- Allocate a fresh cell; its address is the previous heap size. -/
def Heap.alloc (h : Heap) (c : HeapCell) : Heap × Nat :=
  (⟨h.cells ++ [c]⟩, h.cells.length)

/-- Overwrite a cell in place (a caller mutating an array it holds). -/
def Heap.setCell (h : Heap) (r : Nat) (c : HeapCell) : Heap :=
  ⟨h.cells.set r c⟩

/-- A `Table` instance whose `_keys` and `_indices` arrays live in the heap. -/
structure TableRef where
  name : String
  keysRef : Nat
  indicesRef : Nat
  provisionedThroughput : ProvisionedThroughput
deriving DecidableEq, Repr

def readKeysCell : HeapCell → List TableEntry
  | HeapCell.keysArr l => l
  | HeapCell.idxArr _ => []

def readIdxCell : HeapCell → List IndexEntry
  | HeapCell.idxArr l => l
  | HeapCell.keysArr _ => []

/-- The contents of the table's internal `_keys` array. -/
def TableRef.keysArrOf (t : TableRef) (h : Heap) : List TableEntry :=
  readKeysCell (h.getCell t.keysRef)

/-- The contents of the table's internal `_indices` array. -/
def TableRef.indicesArrOf (t : TableRef) (h : Heap) : List IndexEntry :=
  readIdxCell (h.getCell t.indicesRef)

/-- `get keys()` from the source: `return [...this._keys]` — copy the
internal array into a freshly allocated one and return its reference. -/
def TableRef.getKeys (t : TableRef) (h : Heap) : Heap × Nat :=
  h.alloc (HeapCell.keysArr (t.keysArrOf h))

/-- `get indicies()` from the source: `return [...this._indices]`. -/
def TableRef.getIndicies (t : TableRef) (h : Heap) : Heap × Nat :=
  h.alloc (HeapCell.idxArr (t.indicesArrOf h))

/-- The value-level `Table` a heap-resident table denotes. -/
def TableRef.asTable (t : TableRef) (h : Heap) : Table :=
  { name := t.name
    keys := t.keysArrOf h
    indices := t.indicesArrOf h
    provisionedThroughput := t.provisionedThroughput }

/-- `validate()` on a heap-resident table. -/
def TableRef.validate (t : TableRef) (h : Heap) : Except String Unit :=
  (t.asTable h).validate

/-- `toTableSchema()` on a heap-resident table. -/
def TableRef.toTableSchema (t : TableRef) (h : Heap) : Except String TableSchema :=
  (t.asTable h).toTableSchema

/-!
Concrete fixtures used by the scenario claims and witnesses.
-/

/-- First page of the scan scenarios: 5 items with a continuation token. -/
def scanPage1 : Page := ⟨[1, 2, 3, 4, 5], some 1⟩

/-- Second page of the three-page scenario: 0 items, with a continuation
token. -/
def scanPage2 : Page := ⟨[], some 2⟩

/-- Last page of the scan scenarios: 3 items, no continuation token. -/
def scanPage3 : Page := ⟨[6, 7, 8], none⟩

/-- Provider returning the page sequence
`[5 items w/ cursor], [0 items w/ cursor], [3 items, no cursor]`, keyed by
the cursor argument. -/
def scanProvider1 (c : Option Page) : Except Unit Page :=
  match c with
  | none => Except.ok scanPage1
  | some p =>
    if p.startKey = some 1 then Except.ok scanPage2
    else if p.startKey = some 2 then Except.ok scanPage3
    else Except.error ()

/-- Provider whose first page succeeds (5 items with a cursor) and whose
second page fetch fails. -/
def scanProvider2 (c : Option Page) : Except Unit Page :=
  match c with
  | none => Except.ok scanPage1
  | some _ => Except.error ()

/-- Provider returning two pages: 5 items with a cursor, then 3 items with
no cursor. -/
def scanProvider3 (c : Option Page) : Except Unit Page :=
  match c with
  | none => Except.ok scanPage1
  | some p => if p.startKey = some 1 then Except.ok scanPage3 else Except.error ()

/-- A consumer that always signals capacity to continue. -/
def acceptAll : Nat → Bool := fun _ => true

/-- A consumer that declines the first data push and accepts every later
one. -/
def declineFirst : Nat → Bool := fun n => n ≠ 0

/-- The single pull request driving the three-page scenario. -/
def scanRunThreePages : ReaderState × List ReaderEvent :=
  readerRead scanProvider1 acceptAll 10 ReaderState.initial 0

/-- The single pull request driving the failing-second-page scenario. -/
def scanRunErrored : ReaderState × List ReaderEvent :=
  readerRead scanProvider2 acceptAll 10 ReaderState.initial 0

/-- The first pull of the backpressure scenario (its push is declined). -/
def scanRunPausedFirst : ReaderState × List ReaderEvent :=
  readerRead scanProvider3 declineFirst 10 ReaderState.initial 0

/-- The second pull of the backpressure scenario, issued on the paused
state left by the first. -/
def scanRunPausedSecond : ReaderState × List ReaderEvent :=
  readerRead scanProvider3 declineFirst 10 scanRunPausedFirst.1 1

/-- The spec's section 3 invariant list for a table, stated as written
there (for comparison with the source's `validate`): non-empty name;
non-empty key set containing only `Key` instances; exactly one HASH key;
unique key attribute names; only `Index` instances with unique index names;
every key, every index and the throughput independently validate. -/
def Table.specValid (t : Table) : Prop :=
  1 ≤ t.name.length ∧
  t.keys ≠ [] ∧
  t.keys.all TableEntry.isKey = true ∧
  t.hashKeyCount = 1 ∧
  uniqueList (t.keys.map TableEntry.attributeName) = true ∧
  t.indices.all IndexEntry.isIndex = true ∧
  uniqueList (t.indices.map IndexEntry.indexName) = true ∧
  validateEach TableEntry.validateEntry t.keys = Except.ok () ∧
  validateEach IndexEntry.validateEntry t.indices = Except.ok () ∧
  t.provisionedThroughput.validate = Except.ok ()

/-- The number of global secondary indices of a table. -/
def Table.gsiCount (t : Table) : Nat :=
  (t.indices.filter (fun i => i.indexTypeOf = some IndexType.globalSecondary)).length

/-- The number of local secondary indices of a table. -/
def Table.lsiCount (t : Table) : Nat :=
  (t.indices.filter (fun i => i.indexTypeOf = some IndexType.localSecondary)).length

/-!
Concrete table fixtures.
-/

/-- A HASH key on a string attribute `id`. -/
def keyId : Key := ⟨⟨"id", DataType.string, none, none⟩, KeyType.hash⟩

/-- A RANGE key on a number attribute `ts`. -/
def keyTs : Key := ⟨⟨"ts", DataType.number, none, none⟩, KeyType.range⟩

/-- A second HASH key on a distinct attribute. -/
def keyId2 : Key := ⟨⟨"id2", DataType.string, none, none⟩, KeyType.hash⟩

/-- A RANGE key whose attribute name collides with `keyId`. -/
def keyDupName : Key := ⟨⟨"id", DataType.number, none, none⟩, KeyType.range⟩

/-- A small positive throughput. -/
def ptSmall : ProvisionedThroughput := ⟨1, 1⟩

/-- A global secondary index fixture. -/
def gsiOne : Index := ⟨"gsi1", [keyId], IndexType.globalSecondary⟩

/-- A well-formed table: one HASH key, one RANGE key, one global secondary
index. -/
def tableGood : Table :=
  ⟨"t", [TableEntry.key keyId, TableEntry.key keyTs], [IndexEntry.index gsiOne], ptSmall⟩

/-- A table with zero HASH keys. -/
def tableNoHash : Table := ⟨"t", [TableEntry.key keyTs], [], ptSmall⟩

/-- A table with two HASH keys. -/
def tableTwoHash : Table := ⟨"t", [TableEntry.key keyId, TableEntry.key keyId2], [], ptSmall⟩

/-- A table with two keys sharing the attribute name `id`. -/
def tableDupKeyNames : Table :=
  ⟨"t", [TableEntry.key keyId, TableEntry.key keyDupName], [], ptSmall⟩

/-- A table with two indices sharing a name. -/
def tableDupIndexNames : Table :=
  ⟨"t", [TableEntry.key keyId], [IndexEntry.index gsiOne, IndexEntry.index gsiOne], ptSmall⟩

/-- A table whose key set contains a non-`Key` entry. -/
def tableNonKeyEntry : Table :=
  ⟨"t", [TableEntry.key keyId, TableEntry.other 0], [], ptSmall⟩

/-- A table constructed with an empty key set. -/
def tableEmptyKeys : Table := ⟨"t", [], [], ptSmall⟩

/-- The wire schema of `tableGood`: two attribute definitions, two
key-schema entries, a one-element global-secondary-index array and no
local-secondary-index field. -/
def tableGoodSchema : TableSchema :=
  { tableName := "t"
    attributeDefinitions := [⟨"id", "S"⟩, ⟨"ts", "N"⟩]
    keySchema := [⟨"id", KeyType.hash⟩, ⟨"ts", KeyType.range⟩]
    throughput := ⟨1, 1⟩
    globalSecondaryIndexes := some [⟨"gsi1"⟩]
    localSecondaryIndexes := none }

/-- A concrete AES-192 encryptor (the configuration of the serialization
test in the sources). -/
def encryptorSample : Encryptor := ⟨EncryptionType.aes192, [10, 20, 30]⟩

/-- An attribute configured with `encryptorSample`. -/
def attributeSample : Attribute :=
  { name := "test", dataType := DataType.string, encryptor := some encryptorSample }

/-- A nested JSON object with a unicode string, an array, a negative number,
a null and a boolean field. -/
def jsonSample : Json :=
  Json.obj (JsonFields.cons [7]
    (Json.arr (JsonList.cons (Json.str [955, 128169])
      (JsonList.cons (Json.num (-42)) (JsonList.cons Json.null JsonList.nil))))
    (JsonFields.cons [8, 9] (Json.bool true) JsonFields.nil))

/-- A multi-byte/unicode string sample (codepoints beyond one byte). -/
def stringSample : List Nat := [955, 0, 65, 128169]

/-!
Theorems. Helper lemmas come first, then one theorem per claim (with its
witness or counterexample where required).
-/

/-- C2: for a scan whose provider returns the pages
`[5 items w/ cursor], [0 items w/ cursor], [3 items, no cursor]`, one pull
request pushes exactly two non-empty batches in fetch order (the 5 items,
then the 3 items), never pushes an empty batch, signals end-of-sequence
exactly once, ends in the Exhausted state, and the empty intermediate page
advances the cursor (the third `scanChunk` call carries the second page's
continuation token) without any push. -/
theorem scan_reader_three_page_run :
    pushedBatches scanRunThreePages.2 = [[1, 2, 3, 4, 5], [6, 7, 8]] ∧
    [] ∉ pushedBatches scanRunThreePages.2 ∧
    endSignalCount scanRunThreePages.2 = 1 ∧
    scanCalls scanRunThreePages.2 = [none, some scanPage1, some scanPage2] ∧
    scanRunThreePages.1.isExhausted = true ∧
    scanRunThreePages.1.scanned = 8 := by
  decide

/-- C3: when the second page fetch fails after the first page's 5 items were
pushed, the one pull request produces exactly the trace: push of the 5
items, then one end-of-sequence signal, then one asynchronous error
emission; only two `scanChunk` calls ever happen, the reader ends in the
terminal Errored state, and every later pull request on that state is a
complete no-op (so no third `scanChunk` call and no retry can ever occur). -/
theorem scan_reader_error_run :
    scanRunErrored.2 =
      [ReaderEvent.scanCall none, ReaderEvent.pushBatch [1, 2, 3, 4, 5],
        ReaderEvent.scanCall (some scanPage1), ReaderEvent.pushEnd, ReaderEvent.emitError] ∧
    errorSignalCount scanRunErrored.2 = 1 ∧
    endSignalCount scanRunErrored.2 = 1 ∧
    (scanCalls scanRunErrored.2).length = 2 ∧
    scanRunErrored.1.error = true ∧
    ∀ (provider : Option Page → Except Unit Page) (accept : Nat → Bool) (fuel pushCount : Nat),
      readerRead provider accept fuel scanRunErrored.1 pushCount = (scanRunErrored.1, []) := by
  refine ⟨by decide, by decide, by decide, by decide, by decide, ?_⟩
  intro provider accept fuel pushCount
  have h : scanRunErrored.1 = ⟨some scanPage1, 5, false, true⟩ := by decide
  rw [h]
  simp [readerRead]

/-- C4: when the consumer declines the push of the first page, the pull
request performs no further `scanChunk` call (its trace ends at that push)
and leaves the reader Paused with the first page stored as continuation
cursor; the next pull resumes fetching exactly from that stored cursor, so
across both pulls the `scanChunk` cursors are `null` then the first page —
no page skipped, none refetched. -/
theorem scan_reader_backpressure_run :
    scanRunPausedFirst.2 = [ReaderEvent.scanCall none, ReaderEvent.pushBatch [1, 2, 3, 4, 5]] ∧
    scanRunPausedFirst.1.isPaused = true ∧
    scanRunPausedFirst.1.previous = some scanPage1 ∧
    scanRunPausedSecond.2 =
      [ReaderEvent.scanCall (some scanPage1), ReaderEvent.pushBatch [6, 7, 8], ReaderEvent.pushEnd] ∧
    scanCalls (scanRunPausedFirst.2 ++ scanRunPausedSecond.2) = [none, some scanPage1] ∧
    scanRunPausedSecond.1.isExhausted = true := by
  decide

/-- On a complete stored cursor the fetch loop stops at once, for any fuel:
it clears `_reading` and appends only the end-of-sequence signal. -/
theorem scanChunkRecursive_exhausted (provider : Option Page → Except Unit Page)
    (accept : Nat → Bool) (fuel : Nat) (s : ReaderState) (pushCount : Nat)
    (trace : List ReaderEvent) (h : cursorExhausted s.previous = true) :
    scanChunkRecursive provider accept fuel s pushCount trace =
      ({ s with reading := false }, trace ++ [ReaderEvent.pushEnd]) := by
  cases fuel <;> simp [scanChunkRecursive, h]

/-- C5: a pull request while the reader is Reading, or once it is in the
terminal Errored or Exhausted state, triggers no `scanChunk` call and leaves
the reader state unchanged — hence at most one fetch loop runs at a time and
only one fetch is ever outstanding. (In the Reading and Errored cases the
call returns immediately with an empty trace; in the Exhausted case the loop
re-signals end-of-sequence but performs no fetch and restores the state.) -/
theorem scan_reader_pull_noop :
    ∀ (provider : Option Page → Except Unit Page) (accept : Nat → Bool)
      (fuel : Nat) (s : ReaderState) (pushCount : Nat),
      (s.reading = true → readerRead provider accept fuel s pushCount = (s, [])) ∧
      (s.error = true → readerRead provider accept fuel s pushCount = (s, [])) ∧
      (s.isExhausted = true →
        (readerRead provider accept fuel s pushCount).1 = s ∧
        scanCalls (readerRead provider accept fuel s pushCount).2 = []) := by
  intro provider accept fuel s pushCount
  obtain ⟨prev, sc, rd, er⟩ := s
  refine ⟨?_, ?_, ?_⟩
  · intro h
    subst h
    simp [readerRead]
  · intro h
    subst h
    cases rd <;> simp [readerRead]
  · intro h
    simp only [ReaderState.isExhausted, Bool.and_eq_true, Bool.not_eq_true'] at h
    obtain ⟨⟨hce, hrd⟩, her⟩ := h
    subst hrd
    subst her
    rw [readerRead]
    simp only [Bool.false_eq_true, if_false]
    rw [scanChunkRecursive_exhausted _ _ _ _ _ _ hce]
    constructor
    · rfl
    · simp [scanCalls]

/-- Witness for C5: the no-op anatomy applied to concrete Reading, Errored
and Exhausted states. -/
theorem scan_reader_pull_noop_witness :
    (readerRead scanProvider1 acceptAll 3 ⟨none, 0, true, false⟩ 0 = (⟨none, 0, true, false⟩, [])) ∧
    (readerRead scanProvider1 acceptAll 3 ⟨none, 0, false, true⟩ 0 = (⟨none, 0, false, true⟩, [])) ∧
    ((readerRead scanProvider1 acceptAll 3 ⟨some scanPage3, 8, false, false⟩ 0).1 =
        ⟨some scanPage3, 8, false, false⟩ ∧
      scanCalls (readerRead scanProvider1 acceptAll 3 ⟨some scanPage3, 8, false, false⟩ 0).2 = []) :=
  ⟨(scan_reader_pull_noop scanProvider1 acceptAll 3 ⟨none, 0, true, false⟩ 0).1 rfl,
    (scan_reader_pull_noop scanProvider1 acceptAll 3 ⟨none, 0, false, true⟩ 0).2.1 rfl,
    (scan_reader_pull_noop scanProvider1 acceptAll 3 ⟨some scanPage3, 8, false, false⟩ 0).2.2 (by decide)⟩

/-- Once `_startPromise` is memoized, any later `start` call on a
non-disposed provider returns the same settled promise and changes nothing. -/
theorem start_memoized (i : Except Unit Unit) (s : ProviderState) (p : Except Unit Bool)
    (hd : s.disposed = false) (hp : s.startPromise = some p) :
    DynamoProvider.start i s = Except.ok (s, p) := by
  simp [DynamoProvider.start, hd, hp]

/-- Any sequence of later `start` calls on a provider with a memoized
`_startPromise` leaves the state untouched and returns the memoized promise
every time. -/
theorem startMany_memoized (inits : List (Except Unit Unit)) (s : ProviderState)
    (p : Except Unit Bool) (hd : s.disposed = false) (hp : s.startPromise = some p) :
    DynamoProvider.startMany inits s = Except.ok (s, List.replicate inits.length p) := by
  induction inits with
  | nil => rfl
  | cons i is ih =>
    simp only [DynamoProvider.startMany, start_memoized i s p hd hp, ih,
      List.length_cons, List.replicate_succ]

/-- C9: `start()` is idempotent on every non-disposed provider. If the start
promise is already memoized, each call returns it and changes no state. If
not, the first call runs the SDK initialization exactly once (the
initialization counter rises by one) and every later call — any number of
them, with any later initialization outcomes — returns exactly the first
call's result and runs no further initialization (the state, counter
included, stays fixed). -/
theorem provider_start_idempotent :
    ∀ (s : ProviderState) (i1 : Except Unit Unit), s.disposed = false →
      ((∀ p, s.startPromise = some p →
          DynamoProvider.start i1 s = Except.ok (s, p)) ∧
        (s.startPromise = none →
          ∃ s1 r, DynamoProvider.start i1 s = Except.ok (s1, r) ∧
            s1.initCount = s.initCount + 1 ∧
            ∀ inits : List (Except Unit Unit),
              DynamoProvider.startMany inits s1 = Except.ok (s1, List.replicate inits.length r))) := by
  intro s i1 hd
  constructor
  · intro p hp
    exact start_memoized i1 s p hd hp
  · intro hp
    cases i1 with
    | ok u =>
      refine ⟨⟨s.disposed, some (Except.ok true), true, s.initCount + 1⟩, Except.ok true, ?_, rfl, ?_⟩
      · simp [DynamoProvider.start, hd, hp]
      · intro inits
        exact startMany_memoized inits _ _ hd rfl
    | error e =>
      refine ⟨⟨s.disposed, some (Except.error e), s.started, s.initCount + 1⟩, Except.error e, ?_, rfl, ?_⟩
      · simp [DynamoProvider.start, hd, hp]
      · intro inits
        exact startMany_memoized inits _ _ hd rfl

/-- Witness for C9: a fresh provider started with a succeeding
initialization. -/
theorem provider_start_idempotent_witness :
    (∀ p, ProviderState.fresh.startPromise = some p →
        DynamoProvider.start (Except.ok ()) ProviderState.fresh = Except.ok (ProviderState.fresh, p)) ∧
      (ProviderState.fresh.startPromise = none →
        ∃ s1 r, DynamoProvider.start (Except.ok ()) ProviderState.fresh = Except.ok (s1, r) ∧
          s1.initCount = ProviderState.fresh.initCount + 1 ∧
          ∀ inits : List (Except Unit Unit),
            DynamoProvider.startMany inits s1 = Except.ok (s1, List.replicate inits.length r)) :=
  provider_start_idempotent ProviderState.fresh (Except.ok ()) rfl

/-- C6: `Table.validate` fails with a validation error whenever the key set
has zero HASH keys, or two HASH keys, or two keys share an attribute name
(the mapped name list is not unique), or two indices share a name, or the
key set contains an entry that is not a `Key` instance; and it returns
without error on every table satisfying the spec's invariant list. -/
theorem table_validate_cases :
    ∀ t : Table,
      (t.hashKeyCount = 0 → validationFailed t.validate = true) ∧
      (t.hashKeyCount = 2 → validationFailed t.validate = true) ∧
      (uniqueList (t.keys.map TableEntry.attributeName) = false → validationFailed t.validate = true) ∧
      (uniqueList (t.indices.map IndexEntry.indexName) = false → validationFailed t.validate = true) ∧
      (t.keys.all TableEntry.isKey = false → validationFailed t.validate = true) ∧
      (t.specValid → t.validate = Except.ok ()) := by
  intro t
  refine ⟨?_, ?_, ?_, ?_, ?_, ?_⟩
  · intro h
    unfold Table.hashKeyCount at h
    unfold Table.validate
    split_ifs with h1 h2 h3 h4 h5 h6 <;> try rfl
    exfalso
    omega
  · intro h
    unfold Table.hashKeyCount at h
    unfold Table.validate
    split_ifs with h1 h2 h3 h4 h5 h6 <;> try rfl
    exfalso
    omega
  · intro h
    unfold Table.validate
    split_ifs with h1 h2 h3 h4 h5 h6 <;> try rfl
    exfalso
    simp [h] at h4
  · intro h
    unfold Table.validate
    split_ifs with h1 h2 h3 h4 h5 h6 <;> try rfl
    exfalso
    simp [h] at h6
  · intro h
    unfold Table.validate
    split_ifs with h1 h2 h3 h4 h5 h6 <;> try rfl
    exfalso
    simp [h] at h2
  · rintro ⟨h1, h2, h3, h4, h5, h6, h7, h8, h9, h10⟩
    have h4' : (t.keys.filter (fun k => k.keyTypeOf = some KeyType.hash)).length = 1 := h4
    have hn : ¬(t.name.length < 1) := by omega
    simp [Table.validate, hn, h3, h4', h5, h6, h7, h8, h9, h10]

/-- Witness for C6: each failure case exercised on a concrete table, and the
success case on a well-formed table. -/
theorem table_validate_cases_witness :
    validationFailed tableNoHash.validate = true ∧
    validationFailed tableTwoHash.validate = true ∧
    validationFailed tableDupKeyNames.validate = true ∧
    validationFailed tableDupIndexNames.validate = true ∧
    validationFailed tableNonKeyEntry.validate = true ∧
    tableGood.validate = Except.ok () :=
  ⟨(table_validate_cases tableNoHash).1 (by decide),
    (table_validate_cases tableTwoHash).2.1 (by decide),
    (table_validate_cases tableDupKeyNames).2.2.1 (by decide),
    (table_validate_cases tableDupIndexNames).2.2.2.1 (by decide),
    (table_validate_cases tableNonKeyEntry).2.2.2.2.1 (by decide),
    (table_validate_cases tableGood).2.2.2.2.2
      ⟨by decide, by decide, by decide, by decide, by decide,
        by decide, by decide, by decide, by decide, by decide⟩⟩

/-- C7: for every table whose `toTableSchema` succeeds (so for every valid
table), the wire schema carries the global-secondary-index field exactly
when at least one global secondary index exists and the
local-secondary-index field exactly when at least one local secondary index
exists; a present field is a non-empty array, and with no index of the type
the field is entirely absent (`none`), not an empty array. -/
theorem schema_index_field_presence :
    ∀ (t : Table) (sch : TableSchema), t.toTableSchema = Except.ok sch →
      ((sch.globalSecondaryIndexes.isSome = true ↔ 0 < t.gsiCount) ∧
        (∀ l, sch.globalSecondaryIndexes = some l → l ≠ []) ∧
        (t.gsiCount = 0 → sch.globalSecondaryIndexes = none)) ∧
      ((sch.localSecondaryIndexes.isSome = true ↔ 0 < t.lsiCount) ∧
        (∀ l, sch.localSecondaryIndexes = some l → l ≠ []) ∧
        (t.lsiCount = 0 → sch.localSecondaryIndexes = none)) := by
  intro t sch h
  unfold Table.toTableSchema at h
  cases hv : t.validate with
  | error e =>
    rw [hv] at h
    exact Except.noConfusion h
  | ok u =>
    rw [hv] at h
    have hs := Except.ok.inj h
    subst hs
    unfold Table.gsiCount Table.lsiCount
    dsimp only
    constructor
    · rcases Nat.eq_zero_or_pos
        (t.indices.filter (fun i => i.indexTypeOf = some IndexType.globalSecondary)).length with hg | hg
      · rw [if_neg (by omega)]
        refine ⟨by rw [hg]; simp, ?_, fun _ => rfl⟩
        intro l hl
        exact Option.noConfusion hl
      · rw [if_pos (by omega)]
        refine ⟨by simp [hg], ?_, fun h0 => absurd h0 (by omega)⟩
        intro l hl hnil
        have hm := Option.some.inj hl
        rw [← hm, List.map_eq_nil_iff] at hnil
        rw [hnil] at hg
        simp at hg
    · rcases Nat.eq_zero_or_pos
        (t.indices.filter (fun i => i.indexTypeOf = some IndexType.localSecondary)).length with hg | hg
      · rw [if_neg (by omega)]
        refine ⟨by rw [hg]; simp, ?_, fun _ => rfl⟩
        intro l hl
        exact Option.noConfusion hl
      · rw [if_pos (by omega)]
        refine ⟨by simp [hg], ?_, fun h0 => absurd h0 (by omega)⟩
        intro l hl hnil
        have hm := Option.some.inj hl
        rw [← hm, List.map_eq_nil_iff] at hnil
        rw [hnil] at hg
        simp at hg

/-- Witness for C7: the presence anatomy applied to `tableGood`, whose
schema has a one-element GSI array and no LSI field. -/
theorem schema_index_field_presence_witness :
    ((tableGoodSchema.globalSecondaryIndexes.isSome = true ↔ 0 < tableGood.gsiCount) ∧
      (∀ l, tableGoodSchema.globalSecondaryIndexes = some l → l ≠ []) ∧
      (tableGood.gsiCount = 0 → tableGoodSchema.globalSecondaryIndexes = none)) ∧
    ((tableGoodSchema.localSecondaryIndexes.isSome = true ↔ 0 < tableGood.lsiCount) ∧
      (∀ l, tableGoodSchema.localSecondaryIndexes = some l → l ≠ []) ∧
      (tableGood.lsiCount = 0 → tableGoodSchema.localSecondaryIndexes = none)) :=
  schema_index_field_presence tableGood tableGoodSchema (by decide)

/-- Counterexample for C8: on a table constructed with an empty key set the
source's `validate` throws the hash-key invariant error (`Table must have
one hash key.`, the spec's invariant 3), not an error about the key set
being non-empty and containing only `Key` instances (the spec's invariant
2) — the source has no standalone non-emptiness check, so the first failing
check is the one-HASH-key count. -/
theorem table_empty_keys_counterexample :
    Table.validate tableEmptyKeys = Except.error "Table must have one hash key." ∧
    Table.validate tableEmptyKeys ≠ Except.error "Table key array can only contain Key instances." := by
  decide

/-- C8 (amended): for every table with an empty key set and a valid
(non-empty) name, `validate()` fails with the hash-key invariant error
(spec invariant 3: exactly one HASH key), because an empty key set first
trips the exactly-one-HASH-key count — the source has no standalone
non-emptiness check. -/
theorem table_empty_keys_fails_hash_invariant :
    ∀ t : Table, t.keys = [] → 1 ≤ t.name.length →
      t.validate = Except.error "Table must have one hash key." := by
  intro t hk hn
  unfold Table.validate
  rw [hk]
  rw [if_neg (by omega)]
  simp

/-- Witness for C8 (amended): the concrete empty-key-set table. -/
theorem table_empty_keys_fails_hash_invariant_witness :
    Table.validate tableEmptyKeys = Except.error "Table must have one hash key." :=
  table_empty_keys_fails_hash_invariant tableEmptyKeys (by decide) (by decide)

/-- Mutating the freshly allocated copy that a getter returned cannot change
any pre-existing heap cell: the copy's address lies past every old cell. -/
theorem getCell_after_fresh_set (h : Heap) (cell c : HeapCell) (r : Nat)
    (hr : r < h.cells.length) :
    (((h.alloc cell).1.setCell (h.alloc cell).2 c).getCell r) = h.getCell r := by
  unfold Heap.alloc Heap.setCell Heap.getCell
  dsimp only
  rw [List.set_append_right _ _ (Nat.le_refl _), Nat.sub_self]
  rw [List.getD_eq_getElem?_getD, List.getD_eq_getElem?_getD]
  rw [List.getElem?_append_left hr]

/-- C10: the `keys` and `indicies` getters each return a fresh copy of the
internal array; overwriting the returned copy (with any contents `c`) leaves
the table's observable behaviour untouched — its denoted value, `validate()`,
`toTableSchema()`, both internal arrays, and the contents a repeated getter
call hands back are exactly as if no mutation had occurred. -/
theorem table_getters_return_copies :
    ∀ (h : Heap) (t : TableRef) (c : HeapCell),
      t.keysRef < h.cells.length → t.indicesRef < h.cells.length →
      (t.asTable (Heap.setCell (t.getKeys h).1 (t.getKeys h).2 c) = t.asTable h ∧
        t.validate (Heap.setCell (t.getKeys h).1 (t.getKeys h).2 c) = t.validate h ∧
        t.toTableSchema (Heap.setCell (t.getKeys h).1 (t.getKeys h).2 c) = t.toTableSchema h ∧
        readKeysCell ((t.getKeys (Heap.setCell (t.getKeys h).1 (t.getKeys h).2 c)).1.getCell
            (t.getKeys (Heap.setCell (t.getKeys h).1 (t.getKeys h).2 c)).2) = t.keysArrOf h) ∧
      (t.asTable (Heap.setCell (t.getIndicies h).1 (t.getIndicies h).2 c) = t.asTable h ∧
        t.validate (Heap.setCell (t.getIndicies h).1 (t.getIndicies h).2 c) = t.validate h ∧
        t.toTableSchema (Heap.setCell (t.getIndicies h).1 (t.getIndicies h).2 c) = t.toTableSchema h ∧
        readIdxCell ((t.getIndicies (Heap.setCell (t.getIndicies h).1 (t.getIndicies h).2 c)).1.getCell
            (t.getIndicies (Heap.setCell (t.getIndicies h).1 (t.getIndicies h).2 c)).2) = t.indicesArrOf h) := by
  intro h t c hk hi
  have hkeys : ∀ cell, TableRef.keysArrOf t (Heap.setCell (h.alloc cell).1 (h.alloc cell).2 c) = t.keysArrOf h := by
    intro cell
    unfold TableRef.keysArrOf
    rw [getCell_after_fresh_set h cell c t.keysRef hk]
  have hidx : ∀ cell, TableRef.indicesArrOf t (Heap.setCell (h.alloc cell).1 (h.alloc cell).2 c) = t.indicesArrOf h := by
    intro cell
    unfold TableRef.indicesArrOf
    rw [getCell_after_fresh_set h cell c t.indicesRef hi]
  have hasK : ∀ cell, TableRef.asTable t (Heap.setCell (h.alloc cell).1 (h.alloc cell).2 c) = t.asTable h := by
    intro cell
    unfold TableRef.asTable
    rw [hkeys cell, hidx cell]
  constructor
  · have hgk : t.getKeys h = h.alloc (HeapCell.keysArr (t.keysArrOf h)) := rfl
    refine ⟨?_, ?_, ?_, ?_⟩
    · rw [hgk]
      exact hasK _
    · unfold TableRef.validate
      rw [hgk, hasK _]
    · unfold TableRef.toTableSchema
      rw [hgk, hasK _]
    · unfold TableRef.getKeys
      rw [hkeys _]
      unfold Heap.alloc Heap.getCell
      dsimp only
      rw [List.getD_eq_getElem?_getD]
      rw [List.getElem?_append_right (Nat.le_refl _), Nat.sub_self]
      rfl
  · have hgi : t.getIndicies h = h.alloc (HeapCell.idxArr (t.indicesArrOf h)) := rfl
    refine ⟨?_, ?_, ?_, ?_⟩
    · rw [hgi]
      exact hasK _
    · unfold TableRef.validate
      rw [hgi, hasK _]
    · unfold TableRef.toTableSchema
      rw [hgi, hasK _]
    · unfold TableRef.getIndicies
      rw [hidx _]
      unfold Heap.alloc Heap.getCell
      dsimp only
      rw [List.getD_eq_getElem?_getD]
      rw [List.getElem?_append_right (Nat.le_refl _), Nat.sub_self]
      rfl

/-- Witness for C10: a two-cell heap, a table referencing both cells, and an
overwrite of the copy returned by the `keys` getter. -/
theorem table_getters_return_copies_witness :
    TableRef.asTable ⟨"t", 0, 1, ptSmall⟩
        (Heap.setCell
          (TableRef.getKeys ⟨"t", 0, 1, ptSmall⟩
            ⟨[HeapCell.keysArr [TableEntry.key keyId], HeapCell.idxArr []]⟩).1
          (TableRef.getKeys ⟨"t", 0, 1, ptSmall⟩
            ⟨[HeapCell.keysArr [TableEntry.key keyId], HeapCell.idxArr []]⟩).2
          (HeapCell.keysArr [])) =
      TableRef.asTable ⟨"t", 0, 1, ptSmall⟩
        ⟨[HeapCell.keysArr [TableEntry.key keyId], HeapCell.idxArr []]⟩ :=
  (table_getters_return_copies
      ⟨[HeapCell.keysArr [TableEntry.key keyId], HeapCell.idxArr []]⟩
      ⟨"t", 0, 1, ptSmall⟩ (HeapCell.keysArr []) (by decide) (by decide)).1.1

/-- Every JSON value needs at least one unit of decoder recursion depth. -/
theorem sizeJ_pos (j : Json) : 1 ≤ sizeJ j := by
  cases j <;> simp [sizeJ]

/-- Every JSON element list needs at least one unit of decoder depth. -/
theorem sizeJList_pos (l : JsonList) : 1 ≤ sizeJList l := by
  cases l
  all_goals simp [sizeJList] <;> omega

/-- Every JSON field list needs at least one unit of decoder depth. -/
theorem sizeJFields_pos (f : JsonFields) : 1 ≤ sizeJFields f := by
  cases f
  all_goals simp [sizeJFields] <;> omega

/-- The JSON parser is a prefix-exact left inverse of the encoder, at every
fuel at least the value's recursion depth: decoding the encoding followed by
any tail returns the value and that tail, for values, element lists and
field lists alike. -/
theorem decode_encode_all : ∀ fuel : Nat,
    (∀ (j : Json) (rest : List Nat), sizeJ j ≤ fuel →
      decodeJ fuel (encodeJ j ++ rest) = some (j, rest)) ∧
    (∀ (l : JsonList) (rest : List Nat), sizeJList l ≤ fuel →
      decodeJList fuel (encodeJList l ++ rest) = some (l, rest)) ∧
    (∀ (f : JsonFields) (rest : List Nat), sizeJFields f ≤ fuel →
      decodeJFields fuel (encodeJFields f ++ rest) = some (f, rest)) := by
  intro fuel
  induction fuel with
  | zero =>
    refine ⟨?_, ?_, ?_⟩
    · intro j rest h
      exact absurd h (by have := sizeJ_pos j; omega)
    · intro l rest h
      exact absurd h (by have := sizeJList_pos l; omega)
    · intro f rest h
      exact absurd h (by have := sizeJFields_pos f; omega)
  | succ fuel ih =>
    obtain ⟨ihJ, ihL, ihF⟩ := ih
    refine ⟨?_, ?_, ?_⟩
    · intro j rest h
      cases j with
      | str s =>
        show decodeJ (fuel + 1) ((0 :: s.length :: s) ++ rest) = _
        rw [List.cons_append, List.cons_append]
        simp only [decodeJ]
        rw [if_pos (by simp)]
        rw [List.take_left, List.drop_left]
      | num n =>
        rcases lt_or_ge n 0 with hn | hn
        · simp [encodeJ, decodeJ, hn]
          rw [abs_of_neg hn]
          omega
        · have hn' : ¬(n < 0) := by omega
          have hv : ((n.natAbs : Nat) : Int) = n := by omega
          simp [encodeJ, decodeJ, hn', hv]
      | bool b =>
        cases b <;> simp [encodeJ, decodeJ]
      | null =>
        simp [encodeJ, decodeJ]
      | arr items =>
        have hsz : sizeJList items ≤ fuel := by simp [sizeJ] at h; omega
        show decodeJ (fuel + 1) ((4 :: encodeJList items) ++ rest) = _
        rw [List.cons_append]
        simp only [decodeJ]
        rw [ihL items rest hsz]
      | obj fields =>
        have hsz : sizeJFields fields ≤ fuel := by simp [sizeJ] at h; omega
        show decodeJ (fuel + 1) ((7 :: encodeJFields fields) ++ rest) = _
        rw [List.cons_append]
        simp only [decodeJ]
        rw [ihF fields rest hsz]
    · intro l rest h
      cases l with
      | nil =>
        simp [encodeJList, decodeJList]
      | cons hd tl =>
        have h1 : sizeJ hd ≤ fuel := by simp [sizeJList] at h; omega
        have h2 : sizeJList tl ≤ fuel := by simp [sizeJList] at h; omega
        show decodeJList (fuel + 1) ((6 :: (encodeJ hd ++ encodeJList tl)) ++ rest) = _
        rw [List.cons_append, List.append_assoc]
        simp only [decodeJList]
        rw [ihJ hd _ h1]
        dsimp only
        rw [ihL tl rest h2]
    · intro f rest h
      cases f with
      | nil =>
        simp [encodeJFields, decodeJFields]
      | cons fieldName hd tl =>
        have h1 : sizeJ hd ≤ fuel := by simp [sizeJFields] at h; omega
        have h2 : sizeJFields tl ≤ fuel := by simp [sizeJFields] at h; omega
        show decodeJFields (fuel + 1)
            ((9 :: fieldName.length :: (fieldName ++ (encodeJ hd ++ encodeJFields tl))) ++ rest) = _
        rw [List.cons_append, List.cons_append, List.append_assoc, List.append_assoc]
        simp only [decodeJFields]
        rw [if_pos (by simp)]
        rw [List.take_left, List.drop_left]
        rw [ihJ hd _ h1]
        dsimp only
        rw [ihF tl rest h2]

/-- The decoder depth a value needs is at most the length of its encoding
(each recursion step consumes at least one token). -/
theorem size_le_encode_all : ∀ bound : Nat,
    (∀ j : Json, sizeJ j ≤ bound → sizeJ j ≤ (encodeJ j).length) ∧
    (∀ l : JsonList, sizeJList l ≤ bound → sizeJList l ≤ (encodeJList l).length) ∧
    (∀ f : JsonFields, sizeJFields f ≤ bound → sizeJFields f ≤ (encodeJFields f).length) := by
  intro bound
  induction bound with
  | zero =>
    refine ⟨?_, ?_, ?_⟩
    · intro j h
      exact absurd h (by have := sizeJ_pos j; omega)
    · intro l h
      exact absurd h (by have := sizeJList_pos l; omega)
    · intro f h
      exact absurd h (by have := sizeJFields_pos f; omega)
  | succ bound ih =>
    obtain ⟨ihJ, ihL, ihF⟩ := ih
    refine ⟨?_, ?_, ?_⟩
    · intro j h
      cases j with
      | str s => simp [sizeJ, encodeJ]
      | num n => simp [sizeJ, encodeJ]
      | bool b => simp [sizeJ, encodeJ]
      | null => simp [sizeJ, encodeJ]
      | arr items =>
        have h' : sizeJList items ≤ bound := by simp [sizeJ] at h; omega
        have := ihL items h'
        simp [sizeJ, encodeJ]
        omega
      | obj fields =>
        have h' : sizeJFields fields ≤ bound := by simp [sizeJ] at h; omega
        have := ihF fields h'
        simp [sizeJ, encodeJ]
        omega
    · intro l h
      cases l with
      | nil => simp [sizeJList, encodeJList]
      | cons hd tl =>
        have h1 : sizeJ hd ≤ bound := by simp [sizeJList] at h; omega
        have h2 : sizeJList tl ≤ bound := by simp [sizeJList] at h; omega
        have e1 := ihJ hd h1
        have e2 := ihL tl h2
        simp [sizeJList, encodeJList]
        omega
    · intro f h
      cases f with
      | nil => simp [sizeJFields, encodeJFields]
      | cons fieldName hd tl =>
        have h1 : sizeJ hd ≤ bound := by simp [sizeJFields] at h; omega
        have h2 : sizeJFields tl ≤ bound := by simp [sizeJFields] at h; omega
        have e1 := ihJ hd h1
        have e2 := ihF tl h2
        simp [sizeJFields, encodeJFields]
        omega

/-- The JSON text layer is invertible: parsing the encoding of any domain
object (nested arrays, objects and unicode strings included) returns it. -/
theorem json_round_trip (j : Json) : jsonDecodeFull (jsonEncode j) = some j := by
  unfold jsonDecodeFull jsonEncode
  have hle : sizeJ j ≤ (encodeJ j).length + 1 := by
    have := (size_le_encode_all (sizeJ j)).1 j (Nat.le_refl _)
    omega
  have h := (decode_encode_all ((encodeJ j).length + 1)).1 j [] hle
  rw [List.append_nil] at h
  rw [h]

/-- Decompressing a run emitted with a positive count recovers the run and
then continues with the rest. -/
theorem rleDecompress_compressGo (ys : List Nat) : ∀ cnt x, 1 ≤ cnt →
    rleDecompress (rleCompressGo cnt x ys) = some (List.replicate cnt x ++ ys) := by
  induction ys with
  | nil =>
    intro cnt x h
    simp [rleCompressGo, rleDecompress]
    omega
  | cons y ys ihy =>
    intro cnt x h
    by_cases hyx : y = x
    · subst hyx
      rw [rleCompressGo, if_pos rfl]
      rw [ihy (cnt + 1) y (by omega)]
      rw [List.replicate_succ' cnt y]
      simp
    · rw [rleCompressGo, if_neg hyx]
      rw [rleDecompress, if_neg (by omega)]
      rw [ihy 1 y (Nat.le_refl 1)]
      simp

/-- The compression layer is invertible: decompressing any compressed byte
sequence recovers it exactly. -/
theorem rle_round_trip (l : List Nat) : rleDecompress (rleCompress l) = some l := by
  cases l with
  | nil => rfl
  | cons x xs =>
    rw [rleCompress]
    rw [rleDecompress_compressGo xs 1 x (Nat.le_refl 1)]
    simp

/-- The encryption layer is invertible at every stream position: decrypting
what was encrypted with the same encryptor recovers the bytes exactly. -/
theorem cipher_round_trip (e : Encryptor) : ∀ (i : Nat) (l : List Nat),
    decryptFrom e i (encryptFrom e i l) = l := by
  intro i l
  induction l generalizing i with
  | nil => rfl
  | cons b rest ih =>
    rw [encryptFrom, decryptFrom, ih (i + 1)]
    simp

/-- C1: every serializer kind is an exact inverse of itself on its declared
domain — `deserialize(serialize(v)) = v` for arbitrary (multi-byte/unicode)
strings and arbitrary (nested) JSON objects, for the plain, JSON,
compressed-JSON, encrypted-JSON and encrypted-string pipelines (the
encrypted ones on every attribute whose configuration lets `serialize`
succeed) — and each stacked layer (JSON text, compression, encryption) is
itself a byte-exact inverse, so the layering order is identical on both
paths. -/
theorem serializer_round_trip :
    (∀ v : List Nat, StringSerializer.deserialize (StringSerializer.serialize v) = some v) ∧
    (∀ j : Json, JsonSerializer.deserialize (JsonSerializer.serialize j) = some j) ∧
    (∀ j : Json, CompressedJsonSerializer.deserialize (CompressedJsonSerializer.serialize j) = some j) ∧
    (∀ (a : Attribute) (j : Json) (w : WireRecord),
      EncryptedJsonSerializer.serialize a j = Except.ok w →
      EncryptedJsonSerializer.deserialize a w = Except.ok j) ∧
    (∀ (a : Attribute) (s : List Nat) (w : WireRecord),
      EncryptedStringSerializer.serialize a s = Except.ok w →
      EncryptedStringSerializer.deserialize a w = Except.ok s) ∧
    (∀ b : List Nat, rleDecompress (rleCompress b) = some b) ∧
    (∀ (e : Encryptor) (b : List Nat), decryptFrom e 0 (encryptFrom e 0 b) = b) ∧
    (∀ j : Json, jsonDecodeFull (jsonEncode j) = some j) := by
  refine ⟨?_, ?_, ?_, ?_, ?_, rle_round_trip, fun e b => cipher_round_trip e 0 b, json_round_trip⟩
  · intro v
    rfl
  · intro j
    show jsonDecodeFull (jsonEncode j) = some j
    exact json_round_trip j
  · intro j
    show (rleDecompress (rleCompress (jsonEncode j))).bind jsonDecodeFull = some j
    rw [rle_round_trip]
    exact json_round_trip j
  · intro a j w hw
    unfold EncryptedJsonSerializer.serialize at hw
    cases ha : a.encryptor with
    | none =>
      rw [ha] at hw
      exact Except.noConfusion hw
    | some e =>
      rw [ha] at hw
      have hw' := Except.ok.inj hw
      subst hw'
      unfold EncryptedJsonSerializer.deserialize
      rw [ha]
      dsimp only
      rw [cipher_round_trip e 0, rle_round_trip]
      dsimp only
      rw [json_round_trip]
  · intro a s w hw
    unfold EncryptedStringSerializer.serialize at hw
    cases ha : a.encryptor with
    | none =>
      rw [ha] at hw
      exact Except.noConfusion hw
    | some e =>
      rw [ha] at hw
      have hw' := Except.ok.inj hw
      subst hw'
      unfold EncryptedStringSerializer.deserialize
      rw [ha]
      dsimp only
      rw [cipher_round_trip e 0]

/-- Witness for C1: the encrypted pipelines round-trip a nested unicode JSON
object and a multi-byte string through a concretely configured attribute. -/
theorem serializer_round_trip_witness :
    EncryptedJsonSerializer.deserialize attributeSample
        (WireRecord.B (encryptFrom encryptorSample 0 (rleCompress (jsonEncode jsonSample)))) =
      Except.ok jsonSample ∧
    EncryptedStringSerializer.deserialize attributeSample
        (WireRecord.B (encryptFrom encryptorSample 0 stringSample)) =
      Except.ok stringSample :=
  ⟨serializer_round_trip.2.2.2.1 attributeSample jsonSample _ rfl,
    serializer_round_trip.2.2.2.2.1 attributeSample stringSample _ rfl⟩
